import Mathlib

set_option maxRecDepth 16000

/-!
Verification development for the core of egos-2000 (this fork).

The definitions below are shallow embeddings of the C sources:
  * `src/grass/kernel.c`   — `excp_entry`, `proc_yield`, `proc_send`,
    `proc_recv`, `proc_syscall`
  * `src/grass/process.c`  — `proc_set_status` and friends, `proc_alloc`,
    and the user-side syscall stubs (`sys_send`)
  * `src/earth/dev_page.c` — the paging device (frame cache)
  * `src/unnamed/part_001` — the MMU layer: `mmu_alloc`, `soft_tlb_map`,
    `soft_tlb_switch`, `setup_identity_region`,
    `pagetable_identity_mapping`, `page_table_map`

C `int` values are modelled as `Int` (or `Nat` where the source only ever
uses non-negative values), fixed-size C arrays as Lean lists whose length
is constrained by hypotheses, and machine memory that the code addresses
word-by-word as functions `Nat → Nat` on word indices (byte address / 4).
Page-sized `memcpy`/`memcmp`/`memset` operations become pointwise
function updates over a 1024-word range.  `FATAL(...)` terminations are
modelled by returning `none` from an `Option`-valued function.
The C sources' `rand()` calls are modelled by an explicit oracle list of
numbers carried in the state and consumed on demand.
-/

/-! ### Constants

The repository's header files (`egos.h`, `process.h`, `syscall.h`) are not
part of the provided sources; the numeric constants below that come from
them are modelled from the spec.  None of the theorems depend on their
exact values: every claim is quantified over table states, pids and ids.
-/

/-- Modelled from the spec: `MAX_NPROCESS`, the fixed size of the process
table (`process.h` is missing from the sources; the spec fixes only that
the table is fixed-size). -/
def MAX_NPROCESS : Nat := 16

/-- Modelled from the spec: `SYSCALL_MSG_LEN`, the maximum number of
inline message bytes (`syscall.h` is missing from the sources). -/
def SYSCALL_MSG_LEN : Nat := 1024

/-- Modelled from the spec: `GPID_PROCESS`, the pid of the process
server.  The spec's boot scenario states `pid 1, the process server`,
and `grass.c` comments `Spawn the first kernel process, GPID_PROCESS
(pid=1)`. -/
def GPID_PROCESS : Int := 1

/-- Modelled from the spec: `GPID_USER_START`, the first user-application
pid; pids below it designate privileged servers (`egos.h` is missing from
the sources; the exact value is immaterial, all theorems quantify over
pids). -/
def GPID_USER_START : Int := 5

/-- The exit-trampoline address written into `mepc` to terminate a user
process, from `src/grass/kernel.c` (`asm("csrw mepc, %0" ::"r"(0x800500C))`). -/
def EXIT_TRAMPOLINE : Nat := 0x800500C

/-- `EXCP_ID_ECALL_U` from `src/grass/kernel.c`. -/
def EXCP_ID_ECALL_U : Int := 8

/-- `EXCP_ID_ECALL_M` from `src/grass/kernel.c`. -/
def EXCP_ID_ECALL_M : Int := 11

/-! ### A bounded first-match scan

Every `for`-loop in the C sources that searches an array for the first
index satisfying a predicate (with early `return`/`break`) is translated
through `scanIdx p i n`: the least `k` with `i ≤ k < n` and `p k = true`,
or `none`. -/

/-- Fuel-indexed scan: examine indices `i, i+1, ...` while below `n`,
with enough fuel to cover the whole range.  Structural recursion on the
fuel keeps the definition computable by the kernel. -/
def scanFuel (p : Nat → Bool) (n i : Nat) : Nat → Option Nat
  | 0 => none
  | fuel + 1 =>
    if i < n then (if p i then some i else scanFuel p n (i + 1) fuel) else none

/-- First index `k` with `i ≤ k < n` satisfying `p`, mirroring the C
pattern `for (k = i; k < n; k++) if (p(k)) ...`. -/
def scanIdx (p : Nat → Bool) (i n : Nat) : Option Nat :=
  scanFuel p n i (n - i)

theorem scanFuel_none_iff (p : Nat → Bool) (n : Nat) :
    ∀ fuel i, n ≤ i + fuel →
      (scanFuel p n i fuel = none ↔ ∀ k, i ≤ k → k < n → p k = false) := by
  intro fuel
  induction fuel with
  | zero =>
    intro i hf
    constructor
    · intro _ k hik hkn; omega
    · intro _; rfl
  | succ f ih =>
    intro i hf
    show (if i < n then (if p i then some i else scanFuel p n (i + 1) f) else none) =
        none ↔ _
    by_cases hin : i < n
    · rw [if_pos hin]
      by_cases hp : p i
      · rw [if_pos hp]
        constructor
        · intro h; cases h
        · intro h
          have := h i le_rfl hin
          rw [hp] at this; cases this
      · rw [if_neg hp]
        rw [ih (i + 1) (by omega)]
        constructor
        · intro h k hik hkn
          rcases Nat.eq_or_lt_of_le hik with h1 | h1
          · subst h1; exact Bool.eq_false_iff.mpr hp
          · exact h k h1 hkn
        · intro h k hik hkn; exact h k (Nat.le_of_succ_le hik) hkn
    · rw [if_neg hin]
      constructor
      · intro _ k hik hkn; omega
      · intro _; rfl

theorem scanIdx_none_iff (p : Nat → Bool) (i n : Nat) :
    scanIdx p i n = none ↔ ∀ k, i ≤ k → k < n → p k = false :=
  scanFuel_none_iff p n (n - i) i (by omega)

theorem scanFuel_some_iff (p : Nat → Bool) (n j : Nat) :
    ∀ fuel i, n ≤ i + fuel →
      (scanFuel p n i fuel = some j ↔
        i ≤ j ∧ j < n ∧ p j = true ∧ ∀ k, i ≤ k → k < j → p k = false) := by
  intro fuel
  induction fuel with
  | zero =>
    intro i hf
    constructor
    · intro h; cases h
    · rintro ⟨hij, hjn, _, _⟩; omega
  | succ f ih =>
    intro i hf
    show (if i < n then (if p i then some i else scanFuel p n (i + 1) f) else none) =
        some j ↔ _
    by_cases hin : i < n
    · rw [if_pos hin]
      by_cases hp : p i
      · rw [if_pos hp]
        constructor
        · intro h
          injection h with h; subst h
          exact ⟨le_rfl, hin, hp, fun k hik hki => by omega⟩
        · rintro ⟨hij, hjn, hpj, hmin⟩
          rcases Nat.eq_or_lt_of_le hij with h1 | h1
          · rw [h1]
          · have := hmin i le_rfl h1
            rw [hp] at this; cases this
      · rw [if_neg hp]
        rw [ih (i + 1) (by omega)]
        constructor
        · rintro ⟨hij, hjn, hpj, hmin⟩
          refine ⟨Nat.le_of_succ_le hij, hjn, hpj, fun k hik hkj => ?_⟩
          rcases Nat.eq_or_lt_of_le hik with h1 | h1
          · subst h1; exact Bool.eq_false_iff.mpr hp
          · exact hmin k h1 hkj
        · rintro ⟨hij, hjn, hpj, hmin⟩
          have hij2 : i + 1 ≤ j := by
            rcases Nat.eq_or_lt_of_le hij with h1 | h1
            · subst h1; rw [hpj] at hp; exact absurd rfl hp
            · exact h1
          exact ⟨hij2, hjn, hpj, fun k hik hkj => hmin k (Nat.le_of_succ_le hik) hkj⟩
    · rw [if_neg hin]
      constructor
      · intro h; cases h
      · rintro ⟨hij, hjn, _, _⟩; omega

theorem scanIdx_some_iff (p : Nat → Bool) (i n j : Nat) :
    scanIdx p i n = some j ↔
      i ≤ j ∧ j < n ∧ p j = true ∧ ∀ k, i ≤ k → k < j → p k = false :=
  scanFuel_some_iff p n j (n - i) i (by omega)

/-! ### Process model (`src/grass/process.c`, `src/grass/kernel.c`)

A PCB entry carries the fields the core reads and writes: pid, status and
(for `WAIT_TO_SEND`) the target receiver pid.  The saved stack pointer
and saved `mepc` are context-switch glue with no bearing on any claim and
are omitted.  `curr_pid` and `curr_status` are the `process.h` macros for
`proc_set[proc_curr_idx].pid` / `.status` (modelled from the spec:
`process.h` is not under the sources; the macros' meaning is fixed by
their use as lvalues in `kernel.c`). -/

inductive PStatus where
  | UNUSED | LOADING | READY | RUNNING | RUNNABLE | WAIT_TO_SEND | WAIT_TO_RECV
deriving DecidableEq, Repr

structure Process where
  pid : Int
  status : PStatus
  receiver_pid : Int
deriving DecidableEq, Repr

/-- Default PCB entry used for (never-taken) out-of-range `getD` reads. -/
def dProc : Process := { pid := 0, status := PStatus.UNUSED, receiver_pid := 0 }

/-- `proc_set_status` from `src/grass/process.c`: set the status of every
entry whose pid matches (the loop has no early exit; the atomics are
plain accesses on this uniprocessor). -/
def proc_set_status (procs : List Process) (pid : Int) (st : PStatus) : List Process :=
  procs.map (fun p => if p.pid = pid then { p with status := st } else p)

/-- `proc_alloc` from `src/grass/process.c`: find the first `UNUSED`
entry, stamp it with pid `atomic_fetch_add(&proc_nprocs, 1)` (which
returns the value of the counter BEFORE the increment) and status
`LOADING`.  Returns `(new_pid, procs', proc_nprocs')`; `none` models
`FATAL` when no entry is unused. -/
def proc_alloc (procs : List Process) (proc_nprocs : Int) :
    Option (Int × List Process × Int) :=
  match scanIdx (fun i => decide ((procs.getD i dProc).status = PStatus.UNUSED)) 0
      MAX_NPROCESS with
  | some i =>
      some (proc_nprocs,
        procs.set i
          { procs.getD i dProc with pid := proc_nprocs, status := PStatus.LOADING },
        proc_nprocs + 1)
  | none => none

/-! ### Exception entry (`excp_entry` in `src/grass/kernel.c`) -/

/-- Outcome of `excp_entry`: dispatch to the syscall handler, kill the
current user process by pointing `mepc` at the given trampoline address,
or `FATAL`. -/
inductive ExcpAction where
  | Syscall
  | KillUser (mepc : Nat)
  | Fatal
deriving DecidableEq, Repr

/-- `excp_entry` from `src/grass/kernel.c`, as a function of the current
pid and the exception cause id. -/
def excp_entry (curr_pid : Int) (id : Int) : ExcpAction :=
  if id = EXCP_ID_ECALL_U then ExcpAction.Syscall
  else if id = EXCP_ID_ECALL_M ∧ curr_pid ≥ GPID_USER_START then
    ExcpAction.KillUser EXIT_TRAMPOLINE
  else ExcpAction.Fatal

/-! ### Kernel state (`src/grass/kernel.c`)

`KState` bundles the kernel data the three handlers touch: the process
table `proc_set`, the scheduler index `proc_curr_idx`, the per-process
syscall slots, and the pid whose address space is currently in view.
Each process's syscall slot lives at the same fixed virtual address, so
which slot the pointer `sc = (struct syscall*)SYSCALL_ARG` denotes is
selected by the active address space; `earth->mmu_switch(pid)` is modelled
at this layer as selecting `vmPid` (its internal page-copying behaviour is
modelled separately with the MMU layer below).  `nyields` is a ghost
counter incremented by `proc_yield`, used to state that a path performs no
yield. -/

inductive SType where
  | SYS_UNUSED | SYS_SEND | SYS_RECV
deriving DecidableEq, Repr

structure SysMsg where
  sender : Int
  receiver : Int
  content : List Int
deriving DecidableEq, Repr

structure Syscall where
  type : SType
  msg : SysMsg
  retval : Int
deriving DecidableEq, Repr

structure KState where
  procs : List Process
  currIdx : Nat
  slots : Int → Syscall
  vmPid : Int
  nyields : Nat

/-- The `curr_pid` macro: `proc_set[proc_curr_idx].pid`. -/
def curr_pid (s : KState) : Int := (s.procs.getD s.currIdx dProc).pid

/-- The `curr_status` macro: `proc_set[proc_curr_idx].status`. -/
def curr_status (s : KState) : PStatus := (s.procs.getD s.currIdx dProc).status

/-- Update the syscall slot of address space `q`. -/
def writeSlot (s : KState) (q : Int) (f : Syscall → Syscall) : KState :=
  { s with slots := fun r => if r = q then f (s.slots r) else s.slots r }

/-- Scheduling predicate of `proc_yield`:
`s == PROC_READY || s == PROC_RUNNING || s == PROC_RUNNABLE`. -/
def runnableStatus (st : PStatus) : Bool :=
  st = PStatus.READY ∨ st = PStatus.RUNNING ∨ st = PStatus.RUNNABLE

/-- `proc_yield` from `src/grass/kernel.c`.  The loop
`for (i = 1; i <= MAX_NPROCESS; i++)` probing
`proc_set[(proc_curr_idx + i) % MAX_NPROCESS].status` is `scanIdx` over
the step counter `i ∈ [1, MAX_NPROCESS]`.  `none` models
`FATAL("proc_yield: no runnable process")`.  The timer reset and the
`mstatus.MPP` update touch only hardware registers; the `READY` dispatch
branch and the fall-through both end in `proc_set_running(curr_pid)`
(the former then leaves the kernel via `mret`). -/
def proc_yield (s : KState) : Option KState :=
  match scanIdx
      (fun i => runnableStatus
        (s.procs.getD ((s.currIdx + i) % MAX_NPROCESS) dProc).status)
      1 (MAX_NPROCESS + 1) with
  | none => none
  | some step =>
      let next_idx := (s.currIdx + step) % MAX_NPROCESS
      let s1 :=
        if curr_status s = PStatus.RUNNING then
          { s with procs := proc_set_status s.procs (curr_pid s) PStatus.RUNNABLE }
        else s
      let s2 := { s1 with currIdx := next_idx }
      let s3 := { s2 with vmPid := curr_pid s2 }
      some { s3 with
             procs := proc_set_status s3.procs (curr_pid s3) PStatus.RUNNING,
             nyields := s3.nyields + 1 }

/-- `proc_send` from `src/grass/kernel.c`.  `sc->msg.sender = curr_pid`
writes through the active address space; the receiver scan
`for (i = 0; i < MAX_NPROCESS; i++) if (proc_set[i].pid == receiver)`
is `scanIdx`; if the receiver is found and is not in `WAIT_TO_RECV` the
current entry's status and `receiver_pid` are set directly through the
`curr_status` / `proc_set[proc_curr_idx]` lvalues; otherwise the message
is copied from the sender's slot to the receiver's slot via the two
`mmu_switch` calls, the receiver is made runnable, and either way the
found path ends in `proc_yield`.  If the scan fails, `sc->retval = -1`. -/
def proc_send (s : KState) : Option KState :=
  let cp := curr_pid s
  let s0 := writeSlot s s.vmPid (fun sc => { sc with msg := { sc.msg with sender := cp } })
  let receiver := (s0.slots s0.vmPid).msg.receiver
  match scanIdx (fun i => decide ((s0.procs.getD i dProc).pid = receiver)) 0
      MAX_NPROCESS with
  | some i =>
      let s1 :=
        if (s0.procs.getD i dProc).status ≠ PStatus.WAIT_TO_RECV then
          let e := s0.procs.getD s0.currIdx dProc
          let e2 := { e with status := PStatus.WAIT_TO_SEND, receiver_pid := receiver }
          { s0 with procs := s0.procs.set s0.currIdx e2 }
        else
          let sA := { s0 with vmPid := cp }
          let tmp := (sA.slots cp).msg
          let sB := { sA with vmPid := receiver }
          let sC := writeSlot sB receiver (fun sc => { sc with msg := tmp })
          { sC with procs := proc_set_status sC.procs receiver PStatus.RUNNABLE }
      proc_yield s1
  | none => some (writeSlot s0 s0.vmPid (fun sc => { sc with retval := -1 }))

/-- `proc_recv` from `src/grass/kernel.c` (the active, uncommented
version).  The `sc == NULL` and `&sc->msg == NULL` checks are dead code
(`SYSCALL_ARG` is a fixed nonzero constant) and have no model.  The
sender scan looks for the first entry in `WAIT_TO_SEND` whose
`receiver_pid` is `curr_pid`. -/
def proc_recv (s : KState) : Option KState :=
  let cp := curr_pid s
  match scanIdx
      (fun i => decide ((s.procs.getD i dProc).status = PStatus.WAIT_TO_SEND ∧
                        (s.procs.getD i dProc).receiver_pid = cp)) 0
      MAX_NPROCESS with
  | none =>
      let e := s.procs.getD s.currIdx dProc
      let e2 := { e with status := PStatus.WAIT_TO_RECV }
      proc_yield { s with procs := s.procs.set s.currIdx e2 }
  | some i =>
      let sender := (s.procs.getD i dProc).pid
      let sA := { s with vmPid := sender }
      let tmp := (sA.slots sender).msg
      let sB := { sA with vmPid := cp }
      let sC := writeSlot sB cp (fun sc => { sc with msg := tmp })
      proc_yield { sC with procs := proc_set_status sC.procs sender PStatus.RUNNABLE }

/-- The slot reset performed by `proc_syscall` before dispatch:
`sc->retval = 0; sc->type = SYS_UNUSED`. -/
def resetSlot (sc : Syscall) : Syscall :=
  { sc with retval := 0, type := SType.SYS_UNUSED }

/-- `proc_syscall` from `src/grass/kernel.c` (the active version; its
`SYSCALL_ARG == NULL` checks are dead code).  It reads the type tag,
resets `retval`/`type` and the memory-mapped syscall-pending flag
(hardware, no model), and dispatches; an unknown tag is `FATAL`. -/
def proc_syscall (s : KState) : Option KState :=
  let ty := (s.slots s.vmPid).type
  let s0 := writeSlot s s.vmPid resetSlot
  match ty with
  | SType.SYS_RECV => proc_recv s0
  | SType.SYS_SEND => proc_send s0
  | SType.SYS_UNUSED => none

/-- `memcpy(dst, src, n)` on byte lists: the first `n` bytes of `dst` are
replaced by the first `n` bytes of `src`. -/
def memcpyBytes (dst src : List Int) (n : Nat) : List Int :=
  src.take n ++ dst.drop n

/-- The slot writes of the user-side `sys_send` before trapping:
`sc->type = SYS_SEND; sc->msg.receiver = receiver;
memcpy(sc->msg.content, msg, size)`. -/
def sendSlotFill (receiver : Int) (msg : List Int) (size : Nat) (sc : Syscall) :
    Syscall :=
  let m0 := { sc.msg with receiver := receiver }
  let m := { m0 with content := memcpyBytes sc.msg.content msg size }
  { sc with type := SType.SYS_SEND, msg := m }

/-- `sys_send` from the user-side syscall stubs (`src/grass/process.c`,
second part): reject oversize messages before touching the slot, then
fill in the slot's type, receiver and content and trap into the kernel
(`sys_invoke` raises the software interrupt that runs `proc_syscall`);
on resumption return `sc->retval` read from the caller's slot. -/
def sys_send (s : KState) (receiver : Int) (msg : List Int) (size : Nat) :
    Option (Int × KState) :=
  if size > SYSCALL_MSG_LEN then some (-1, s)
  else
    let s1 := writeSlot s s.vmPid (sendSlotFill receiver msg size)
    (proc_syscall s1).map (fun s2 => ((s2.slots (curr_pid s)).retval, s2))

/-! ### Claim C1 and C4 evidence -/

/-- The boot process table: all `MAX_NPROCESS` entries `UNUSED`
(`struct process proc_set[MAX_NPROCESS]` is zero-initialised C static
storage and `PROC_UNUSED` is the zero status). -/
def bootProcs : List Process := List.replicate MAX_NPROCESS dProc

/-- C1: the claim says every exception other than environment-call-from-
user (id 8) kills the current process when it is a user process
(pid ≥ `GPID_USER_START`).  The code's kill branch additionally requires
`id == EXCP_ID_ECALL_M` (11), so a load access fault (exception id 5)
raised by a user process falls through to `FATAL`: the code contradicts
its own in-branch comment (`Handle unauthorized memory access or other
exceptions here`) and the spec's load-access-fault scenario.  This
theorem evaluates `excp_entry` at that failing input. -/
theorem C1_user_load_fault_is_fatal :
    excp_entry GPID_USER_START 5 = ExcpAction.Fatal ∧
    (∀ m : Nat, excp_entry GPID_USER_START 5 ≠ ExcpAction.KillUser m) ∧
    GPID_USER_START ≥ GPID_USER_START ∧ (5 : Int) ≠ EXCP_ID_ECALL_U := by
  have h : excp_entry GPID_USER_START 5 = ExcpAction.Fatal := by decide
  refine ⟨h, ?_, le_rfl, by decide⟩
  intro m hm
  rw [h] at hm
  cases hm

/-- C4: the claim says the first process allocated at boot (the process
server) has pid 1.  `proc_alloc` draws the new pid from
`atomic_fetch_add(&proc_nprocs, 1)`, which returns the counter value
BEFORE the increment, so with `proc_nprocs = 0` at boot the first call
returns pid 0 — contradicting `grass.c`'s own comment (`Spawn the first
kernel process, GPID_PROCESS (pid=1)`) and the commented-out original
(`proc_set[i].pid = ++proc_nprocs`).  This theorem evaluates the first
boot-time allocation. -/
theorem C4_first_alloc_returns_pid_zero :
    (proc_alloc bootProcs 0).map (fun r => r.fst) = some 0 ∧
    (0 : Int) ≠ GPID_PROCESS := by
  constructor
  · decide
  · decide

/-! ### Claim C3: the `proc_yield` scheduling step -/

/-- Default syscall slot contents. -/
def dSyscall : Syscall :=
  { type := SType.SYS_UNUSED,
    msg := { sender := 0, receiver := 0, content := [] }, retval := 0 }

/-- The demotion step of `proc_yield`:
`if (curr_status == PROC_RUNNING) proc_set_runnable(curr_pid)`. -/
def yieldDemote (s : KState) : List Process :=
  if curr_status s = PStatus.RUNNING then
    proc_set_status s.procs (curr_pid s) PStatus.RUNNABLE
  else s.procs

theorem rotation_cover (c : Nat) (hc : c < MAX_NPROCESS) (P : Nat → Prop) :
    (∀ k, 1 ≤ k → k ≤ MAX_NPROCESS → P ((c + k) % MAX_NPROCESS)) ↔
      (∀ j, j < MAX_NPROCESS → P j) := by
  have hN : 0 < MAX_NPROCESS := by decide
  constructor
  · intro h j hj
    by_cases hjc : c < j
    · have hk := h (j - c) (by omega) (by omega)
      have : c + (j - c) = j := by omega
      rw [this, Nat.mod_eq_of_lt hj] at hk
      exact hk
    · have hk := h (j + MAX_NPROCESS - c) (by omega) (by omega)
      have : c + (j + MAX_NPROCESS - c) = j + MAX_NPROCESS := by omega
      rw [this, Nat.add_mod_right, Nat.mod_eq_of_lt hj] at hk
      exact hk
  · intro h k _ _
    exact h _ (Nat.mod_lt _ hN)

/-- C3 counterexample: with a process table whose only qualifying entry
is the current one (pid 1 `RUNNING` at index 0, all other entries
`UNUSED`), the rotation re-selects the outgoing process itself; it is
demoted to `RUNNABLE` and then immediately promoted back, so after
`yield()` its status is `RUNNING`, not `RUNNABLE` — refuting the claim's
unconditional `if the outgoing process had status RUNNING its status
becomes RUNNABLE`. -/
def yieldSelfProcs : List Process :=
  ({ pid := 1, status := PStatus.RUNNING, receiver_pid := 0 } : Process) ::
    List.replicate 15 dProc

def yieldSelfState : KState :=
  { procs := yieldSelfProcs, currIdx := 0, slots := fun _ => dSyscall,
    vmPid := 1, nyields := 0 }

/-- C3 (counterexample): the outgoing process was `RUNNING`, yet after
`proc_yield` its status is `RUNNING` again (it was the entry selected to
run next), not `RUNNABLE`. -/
theorem C3_self_reselection_stays_running :
    curr_status yieldSelfState = PStatus.RUNNING ∧
    (proc_yield yieldSelfState).map (fun t => (t.procs.getD 0 dProc).status) =
      some PStatus.RUNNING ∧
    PStatus.RUNNING ≠ PStatus.RUNNABLE := by
  refine ⟨by decide, by decide, by decide⟩

/-- C3 (amended): `proc_yield` selects the first entry, rotating from the
index after the current one through the fixed-size table, whose status is
`READY`, `RUNNING` or `RUNNABLE`; if no entry qualifies it is fatal; and
an outgoing `RUNNING` process is demoted to `RUNNABLE` BEFORE the
selected entry is set `RUNNING` (so when the selected entry is the
outgoing process itself, it ends `RUNNING`). -/
theorem C3_yield_first_runnable_rotation (s : KState)
    (hidx : s.currIdx < MAX_NPROCESS) :
    (proc_yield s = none ↔
      ∀ j, j < MAX_NPROCESS →
        runnableStatus (s.procs.getD j dProc).status = false) ∧
    (∀ t, proc_yield s = some t →
      ∃ step, 1 ≤ step ∧ step ≤ MAX_NPROCESS ∧
        runnableStatus
          ((s.procs.getD ((s.currIdx + step) % MAX_NPROCESS) dProc).status) = true ∧
        (∀ k, 1 ≤ k → k < step →
          runnableStatus
            ((s.procs.getD ((s.currIdx + k) % MAX_NPROCESS) dProc).status) = false) ∧
        t.currIdx = (s.currIdx + step) % MAX_NPROCESS ∧
        t.procs = proc_set_status (yieldDemote s)
          (((yieldDemote s).getD t.currIdx dProc).pid) PStatus.RUNNING ∧
        t.vmPid = ((yieldDemote s).getD t.currIdx dProc).pid ∧
        t.slots = s.slots ∧ t.nyields = s.nyields + 1) := by
  constructor
  · unfold proc_yield
    cases h : scanIdx
        (fun i => runnableStatus
          (s.procs.getD ((s.currIdx + i) % MAX_NPROCESS) dProc).status)
        1 (MAX_NPROCESS + 1) with
    | none =>
      constructor
      · intro _
        rw [scanIdx_none_iff] at h
        rw [← rotation_cover s.currIdx hidx]
        intro k h1 h2
        exact h k h1 (by omega)
      · intro _; rfl
    | some step =>
      constructor
      · intro hfalse; exact Option.noConfusion hfalse
      · intro hall
        rw [scanIdx_some_iff] at h
        obtain ⟨h1, h2, h3, _⟩ := h
        have hf := (rotation_cover s.currIdx hidx _).mpr hall step h1 (by omega)
        rw [h3] at hf
        exact Bool.noConfusion hf
  · intro t ht
    unfold proc_yield at ht
    cases h : scanIdx
        (fun i => runnableStatus
          (s.procs.getD ((s.currIdx + i) % MAX_NPROCESS) dProc).status)
        1 (MAX_NPROCESS + 1) with
    | none => rw [h] at ht; cases ht
    | some step =>
      rw [h] at ht
      rw [scanIdx_some_iff] at h
      obtain ⟨h1, h2, h3, h4⟩ := h
      refine ⟨step, h1, by omega, h3, fun k hk1 hk2 => h4 k hk1 hk2, ?_⟩
      injection ht with ht
      subst ht
      by_cases hc : (s.procs.getD s.currIdx dProc).status = PStatus.RUNNING
      · simp only [yieldDemote, curr_status, curr_pid, if_pos hc]
        exact ⟨trivial, trivial, trivial, trivial, trivial⟩
      · simp only [yieldDemote, curr_status, curr_pid, if_neg hc]
        exact ⟨trivial, trivial, trivial, trivial, trivial⟩

/-- C3 witness: the amended characterization applied at a concrete state
(the single-running-process table, current index 0). -/
theorem C3_yield_first_runnable_rotation_witness :
    yieldSelfState.currIdx < MAX_NPROCESS ∧
    ((proc_yield yieldSelfState = none ↔
      ∀ j, j < MAX_NPROCESS →
        runnableStatus (yieldSelfState.procs.getD j dProc).status = false) ∧
    (∀ t, proc_yield yieldSelfState = some t →
      ∃ step, 1 ≤ step ∧ step ≤ MAX_NPROCESS ∧
        runnableStatus
          ((yieldSelfState.procs.getD
            ((yieldSelfState.currIdx + step) % MAX_NPROCESS) dProc).status) = true ∧
        (∀ k, 1 ≤ k → k < step →
          runnableStatus
            ((yieldSelfState.procs.getD
              ((yieldSelfState.currIdx + k) % MAX_NPROCESS) dProc).status) = false) ∧
        t.currIdx = (yieldSelfState.currIdx + step) % MAX_NPROCESS ∧
        t.procs = proc_set_status (yieldDemote yieldSelfState)
          (((yieldDemote yieldSelfState).getD t.currIdx dProc).pid)
          PStatus.RUNNING ∧
        t.vmPid = ((yieldDemote yieldSelfState).getD t.currIdx dProc).pid ∧
        t.slots = yieldSelfState.slots ∧
        t.nyields = yieldSelfState.nyields + 1)) :=
  ⟨by decide, C3_yield_first_runnable_rotation yieldSelfState (by decide)⟩

/-! ### Claim C10: `proc_send` with an absent receiver -/

/-- The unconditional first statement of `proc_send`:
`sc->msg.sender = curr_pid`. -/
def stampSender (cp : Int) (sc : Syscall) : Syscall :=
  { sc with msg := { sc.msg with sender := cp } }

/-- The absent-receiver write of `proc_send`: `sc->retval = -1`. -/
def stampRetNeg (sc : Syscall) : Syscall := { sc with retval := -1 }

/-- Both slot writes of `proc_send`'s absent-receiver path combined. -/
def stampSlotNeg (cp : Int) (sc : Syscall) : Syscall := stampRetNeg (stampSender cp sc)

/-- C10 (amended): when `proc_send` finds no process-table entry whose
pid equals the slot's receiver pid, the only state changes are to the
caller's syscall slot: its `retval` is set to −1 AND its `msg.sender`
was stamped with the current pid by `proc_send`'s unconditional first
statement.  No process status, no PCB `receiver_pid`, no scheduler index
changes, no other slot changes, and no yield occurs. -/
theorem C10_send_absent_receiver (s : KState)
    (hvm : s.vmPid = curr_pid s)
    (habs : ∀ i, i < MAX_NPROCESS →
      (s.procs.getD i dProc).pid ≠ (s.slots (curr_pid s)).msg.receiver) :
    proc_send s =
      some (writeSlot (writeSlot s s.vmPid (stampSender (curr_pid s)))
        s.vmPid stampRetNeg) ∧
    (writeSlot (writeSlot s s.vmPid (stampSender (curr_pid s)))
        s.vmPid stampRetNeg).procs = s.procs ∧
    (writeSlot (writeSlot s s.vmPid (stampSender (curr_pid s)))
        s.vmPid stampRetNeg).currIdx = s.currIdx ∧
    (writeSlot (writeSlot s s.vmPid (stampSender (curr_pid s)))
        s.vmPid stampRetNeg).vmPid = s.vmPid ∧
    (writeSlot (writeSlot s s.vmPid (stampSender (curr_pid s)))
        s.vmPid stampRetNeg).nyields = s.nyields ∧
    (writeSlot (writeSlot s s.vmPid (stampSender (curr_pid s)))
        s.vmPid stampRetNeg).slots (curr_pid s) =
      stampSlotNeg (curr_pid s) (s.slots (curr_pid s)) ∧
    (∀ q, q ≠ curr_pid s →
      (writeSlot (writeSlot s s.vmPid (stampSender (curr_pid s)))
        s.vmPid stampRetNeg).slots q = s.slots q) := by
  refine ⟨?_, rfl, rfl, rfl, rfl, ?_, ?_⟩
  · simp only [proc_send, stampSender, stampRetNeg]
    split
    · next i heq =>
      rw [scanIdx_some_iff] at heq
      obtain ⟨-, hiN, hp, -⟩ := heq
      simp only [writeSlot, if_pos rfl, decide_eq_true_eq] at hp
      rw [hvm] at hp
      exact absurd hp (habs i hiN)
    · next heq => rfl
  · simp [writeSlot, stampSlotNeg, stampRetNeg, stampSender, hvm]
  · intro q hq
    have hq2 : q ≠ s.vmPid := by rw [hvm]; exact hq
    simp only [writeSlot, if_neg hq2]

/-- Concrete state for C10: current process pid 1 at index 0, its slot's
message has `sender = 99` and targets absent receiver pid 42. -/
def sendAbsSlot : Syscall :=
  { type := SType.SYS_SEND,
    msg := { sender := 99, receiver := 42, content := [] }, retval := 0 }

def sendAbsProcs : List Process :=
  ({ pid := 1, status := PStatus.RUNNING, receiver_pid := 0 } : Process) ::
    List.replicate 15 dProc

def sendAbsState : KState :=
  { procs := sendAbsProcs, currIdx := 0,
    slots := fun q => if q = 1 then sendAbsSlot else dSyscall,
    vmPid := 1, nyields := 0 }

/-- C10 (counterexample): the claim says the ONLY state change on an
absent receiver is the slot's return value being set to −1; but
`proc_send` first executes `sc->msg.sender = curr_pid`, so the slot's
`msg.sender` also changes (here from 99 to 1). -/
theorem C10_sender_also_written :
    (sendAbsState.slots 1).msg.sender = 99 ∧
    (proc_send sendAbsState).map (fun t => (t.slots 1).msg.sender) = some 1 ∧
    (99 : Int) ≠ 1 := by
  refine ⟨by decide, by decide, by decide⟩

/-- C10 witness: the amended statement applied at the concrete absent-
receiver state. -/
theorem C10_send_absent_receiver_witness :
    (sendAbsState.vmPid = curr_pid sendAbsState) ∧
    ((∀ i, i < MAX_NPROCESS →
      (sendAbsState.procs.getD i dProc).pid ≠
        (sendAbsState.slots (curr_pid sendAbsState)).msg.receiver) ∧
    (proc_send sendAbsState =
      some (writeSlot
        (writeSlot sendAbsState sendAbsState.vmPid
          (stampSender (curr_pid sendAbsState)))
        sendAbsState.vmPid stampRetNeg) ∧
    (writeSlot (writeSlot sendAbsState sendAbsState.vmPid
        (stampSender (curr_pid sendAbsState)))
        sendAbsState.vmPid stampRetNeg).procs = sendAbsState.procs ∧
    (writeSlot (writeSlot sendAbsState sendAbsState.vmPid
        (stampSender (curr_pid sendAbsState)))
        sendAbsState.vmPid stampRetNeg).currIdx = sendAbsState.currIdx ∧
    (writeSlot (writeSlot sendAbsState sendAbsState.vmPid
        (stampSender (curr_pid sendAbsState)))
        sendAbsState.vmPid stampRetNeg).vmPid = sendAbsState.vmPid ∧
    (writeSlot (writeSlot sendAbsState sendAbsState.vmPid
        (stampSender (curr_pid sendAbsState)))
        sendAbsState.vmPid stampRetNeg).nyields = sendAbsState.nyields ∧
    (writeSlot (writeSlot sendAbsState sendAbsState.vmPid
        (stampSender (curr_pid sendAbsState)))
        sendAbsState.vmPid stampRetNeg).slots (curr_pid sendAbsState) =
      stampSlotNeg (curr_pid sendAbsState)
        (sendAbsState.slots (curr_pid sendAbsState)) ∧
    (∀ q, q ≠ curr_pid sendAbsState →
      (writeSlot (writeSlot sendAbsState sendAbsState.vmPid
          (stampSender (curr_pid sendAbsState)))
          sendAbsState.vmPid stampRetNeg).slots q = sendAbsState.slots q))) :=
  ⟨by decide, by decide,
    C10_send_absent_receiver sendAbsState (by decide) (by decide)⟩

/-! ### Helper lemmas for the send path (claim C2) -/

theorem proc_yield_slots (s t : KState) (h : proc_yield s = some t) :
    t.slots = s.slots := by
  unfold proc_yield at h
  rcases hs : scanIdx
      (fun i => runnableStatus
        (s.procs.getD ((s.currIdx + i) % MAX_NPROCESS) dProc).status)
      1 (MAX_NPROCESS + 1) with _ | step
  · rw [hs] at h; cases h
  · rw [hs] at h
    injection h with h
    subst h
    by_cases hc : (s.procs.getD s.currIdx dProc).status = PStatus.RUNNING
    · simp only [curr_status, if_pos hc]
    · simp only [curr_status, if_neg hc]

theorem proc_send_absent_eq (s : KState)
    (habs : ∀ i, i < MAX_NPROCESS →
      (s.procs.getD i dProc).pid ≠ (s.slots s.vmPid).msg.receiver) :
    proc_send s =
      some (writeSlot (writeSlot s s.vmPid (stampSender (curr_pid s)))
        s.vmPid stampRetNeg) := by
  simp only [proc_send, stampSender, stampRetNeg]
  split
  · next i heq =>
    rw [scanIdx_some_iff] at heq
    obtain ⟨-, hiN, hp, -⟩ := heq
    simp only [writeSlot, if_pos rfl, decide_eq_true_eq] at hp
    exact absurd hp (habs i hiN)
  · next heq => rfl

theorem proc_send_found_retval (s : KState)
    (hfound : ∃ i, i < MAX_NPROCESS ∧
      (s.procs.getD i dProc).pid = (s.slots s.vmPid).msg.receiver) :
    ∀ t, proc_send s = some t → ∀ q, (t.slots q).retval = (s.slots q).retval := by
  intro t ht q
  simp only [proc_send] at ht
  split at ht
  · next i heq =>
    have hts := proc_yield_slots _ t ht
    rw [hts]
    split
    · next hcond =>
      by_cases hq : q = s.vmPid <;> simp [writeSlot, hq]
    · next hcond =>
      simp only [writeSlot]
      split_ifs <;> simp
  · next heq =>
    rw [scanIdx_none_iff] at heq
    obtain ⟨i, hiN, hpid⟩ := hfound
    have := heq i (Nat.zero_le i) hiN
    simp only [writeSlot, if_pos rfl, decide_eq_false_iff_not] at this
    exact absurd hpid this

theorem proc_syscall_send (s : KState)
    (hty : (s.slots s.vmPid).type = SType.SYS_SEND) :
    proc_syscall s = proc_send (writeSlot s s.vmPid resetSlot) := by
  simp only [proc_syscall, hty]

/-- C2: `send(receiver, bytes, len)` returns 0 when the receiver pid is
present in the process table (delivery, immediate or after blocking in
`WAIT_TO_SEND`), returns −1 if `len > SYSCALL_MSG_LEN` — in which case
the syscall slot (indeed the whole state) is untouched — and returns −1
if the receiver pid is absent from the process table.  In particular
`len = SYSCALL_MSG_LEN` passes the length check and `len =
SYSCALL_MSG_LEN + 1` returns −1 without writing any slot field. -/
theorem C2_sys_send_returns (s : KState) (receiver : Int) (msg : List Int)
    (len : Nat) (hvm : s.vmPid = curr_pid s) :
    (len > SYSCALL_MSG_LEN → sys_send s receiver msg len = some (-1, s)) ∧
    (len ≤ SYSCALL_MSG_LEN →
      (∀ i, i < MAX_NPROCESS → (s.procs.getD i dProc).pid ≠ receiver) →
      (sys_send s receiver msg len).map Prod.fst = some (-1)) ∧
    (len ≤ SYSCALL_MSG_LEN →
      (∃ i, i < MAX_NPROCESS ∧ (s.procs.getD i dProc).pid = receiver) →
      ∀ r t, sys_send s receiver msg len = some (r, t) → r = 0) := by
  refine ⟨?_, ?_, ?_⟩
  · intro hgt
    simp only [sys_send, if_pos hgt]
  · intro hle habs
    have hnotgt : ¬ len > SYSCALL_MSG_LEN := by omega
    have hty : ((writeSlot s s.vmPid (sendSlotFill receiver msg len)).slots
        (writeSlot s s.vmPid (sendSlotFill receiver msg len)).vmPid).type =
        SType.SYS_SEND := by
      simp [writeSlot, sendSlotFill]
    have habs2 : ∀ i, i < MAX_NPROCESS →
        ((writeSlot (writeSlot s s.vmPid (sendSlotFill receiver msg len))
            (writeSlot s s.vmPid (sendSlotFill receiver msg len)).vmPid
            resetSlot).procs.getD i dProc).pid ≠
          ((writeSlot (writeSlot s s.vmPid (sendSlotFill receiver msg len))
            (writeSlot s s.vmPid (sendSlotFill receiver msg len)).vmPid
            resetSlot).slots
            (writeSlot (writeSlot s s.vmPid (sendSlotFill receiver msg len))
            (writeSlot s s.vmPid (sendSlotFill receiver msg len)).vmPid
            resetSlot).vmPid).msg.receiver := by
      intro i hi
      simpa [writeSlot, sendSlotFill, resetSlot] using habs i hi
    simp only [sys_send, if_neg hnotgt]
    rw [proc_syscall_send _ hty, proc_send_absent_eq _ habs2]
    simp [writeSlot, resetSlot, stampRetNeg, stampSender, hvm]
  · intro hle hfound r t hst
    have hnotgt : ¬ len > SYSCALL_MSG_LEN := by omega
    have hty : ((writeSlot s s.vmPid (sendSlotFill receiver msg len)).slots
        (writeSlot s s.vmPid (sendSlotFill receiver msg len)).vmPid).type =
        SType.SYS_SEND := by
      simp [writeSlot, sendSlotFill]
    simp only [sys_send, if_neg hnotgt] at hst
    rw [proc_syscall_send _ hty] at hst
    rw [Option.map_eq_some'] at hst
    obtain ⟨s2, hs2, heq2⟩ := hst
    have hfound2 : ∃ i, i < MAX_NPROCESS ∧
        ((writeSlot (writeSlot s s.vmPid (sendSlotFill receiver msg len))
            (writeSlot s s.vmPid (sendSlotFill receiver msg len)).vmPid
            resetSlot).procs.getD i dProc).pid =
          ((writeSlot (writeSlot s s.vmPid (sendSlotFill receiver msg len))
            (writeSlot s s.vmPid (sendSlotFill receiver msg len)).vmPid
            resetSlot).slots
            (writeSlot (writeSlot s s.vmPid (sendSlotFill receiver msg len))
            (writeSlot s s.vmPid (sendSlotFill receiver msg len)).vmPid
            resetSlot).vmPid).msg.receiver := by
      obtain ⟨i, hi, hpid⟩ := hfound
      exact ⟨i, hi, by simpa [writeSlot, sendSlotFill, resetSlot] using hpid⟩
    have hret := proc_send_found_retval _ hfound2 s2 hs2 (curr_pid s)
    have hzero : (s2.slots (curr_pid s)).retval = 0 := by
      rw [hret]
      simp [writeSlot, resetSlot, sendSlotFill, hvm]
    injection heq2 with h1 h2
    rw [← h1]
    exact hzero

/-- Concrete state for the C2 witness: pid 1 running at index 0, pid 2
waiting to receive at index 1. -/
def sendWitProcs : List Process :=
  ({ pid := 1, status := PStatus.RUNNING, receiver_pid := 0 } : Process) ::
    ({ pid := 2, status := PStatus.WAIT_TO_RECV, receiver_pid := 0 } : Process) ::
      List.replicate 14 dProc

def sendWitState : KState :=
  { procs := sendWitProcs, currIdx := 0, slots := fun _ => dSyscall,
    vmPid := 1, nyields := 0 }

/-- C2 witness: the theorem applied at a concrete state (receiver pid 2
present and waiting, message length at the `SYSCALL_MSG_LEN` boundary). -/
theorem C2_sys_send_returns_witness :
    (sendWitState.vmPid = curr_pid sendWitState) ∧
    ((SYSCALL_MSG_LEN > SYSCALL_MSG_LEN →
      sys_send sendWitState 2 [7] SYSCALL_MSG_LEN = some (-1, sendWitState)) ∧
    (SYSCALL_MSG_LEN ≤ SYSCALL_MSG_LEN →
      (∀ i, i < MAX_NPROCESS →
        (sendWitState.procs.getD i dProc).pid ≠ 2) →
      (sys_send sendWitState 2 [7] SYSCALL_MSG_LEN).map Prod.fst = some (-1)) ∧
    (SYSCALL_MSG_LEN ≤ SYSCALL_MSG_LEN →
      (∃ i, i < MAX_NPROCESS ∧ (sendWitState.procs.getD i dProc).pid = 2) →
      ∀ r t, sys_send sendWitState 2 [7] SYSCALL_MSG_LEN = some (r, t) → r = 0)) :=
  ⟨by decide, C2_sys_send_returns sendWitState 2 [7] SYSCALL_MSG_LEN (by decide)⟩

/-! ### Paging device (`src/earth/dev_page.c`)

Machine memory is word-addressed: `mem w` is the 32-bit word at byte
address `4*w`.  A page is `PAGE_WORDS = 1024` words.  The backing store
is addressed at frame granularity (`disk_read`/`disk_write` are always
called on whole 8-block frames): `disk (f*1024 + k)` is word `k` of
frame `f`.  `rand()` is an oracle: the head of `rands` (consumed on each
call).  The pthread locks are no-ops on this uniprocessor and have no
model; `pages_start` is `FRAME_CACHE_START`. -/

/-- `PAGE_SIZE` (4 KiB pages; the paging device's own comment:
4KB / 512B == 8 blocks per page). -/
def PAGE_SIZE : Nat := 4096

/-- Words per page. -/
def PAGE_WORDS : Nat := 1024

/-- `NFRAMES` from the MMU layer (`src/unnamed/part_001`). -/
def NFRAMES : Nat := 256

/-- `ARTY_CACHED_NFRAMES` from `src/earth/dev_page.c`. -/
def ARTY_CACHED_NFRAMES : Nat := 28

/-- Modelled from the spec: `FRAME_CACHE_START`, the fast-memory base
address of the frame cache (`egos.h` is missing from the sources; the
exact page-aligned value is immaterial to the claims). -/
def FRAME_CACHE_START : Nat := 0x80004000

/-- Word index of the frame cache base. -/
def cacheBaseW : Nat := FRAME_CACHE_START / 4

/-- Word index of cache slot `idx`: `pages_start + PAGE_SIZE * idx`. -/
def slotBaseW (idx : Nat) : Nat := cacheBaseW + idx * PAGE_WORDS

inductive Platform where
  | QEMU | ARTY
deriving DecidableEq, Repr

structure PagingState where
  platform : Platform
  cache_slots : List Int
  dirty_pages : List Bool
  mem : Nat → Nat
  disk : Int → Nat
  rands : List Nat

/-- A single word store. -/
def wordWrite (w v : Nat) (mem : Nat → Nat) : Nat → Nat :=
  fun a => if a = w then v else mem a

/-- `memcpy(dst, src, PAGE_SIZE)` on word-addressed memory. -/
def memcpyPageW (dstW srcW : Nat) (mem : Nat → Nat) : Nat → Nat :=
  fun a => if dstW ≤ a ∧ a < dstW + PAGE_WORDS then mem (srcW + (a - dstW)) else mem a

/-- `memset(dst, 0, PAGE_SIZE)` on word-addressed memory. -/
def memsetPageW (dstW : Nat) (mem : Nat → Nat) : Nat → Nat :=
  fun a => if dstW ≤ a ∧ a < dstW + PAGE_WORDS then 0 else mem a

/-- `memcmp(a, b, PAGE_SIZE) == 0` on word-addressed memory. -/
def pageEqB (mem : Nat → Nat) (aW bW : Nat) : Bool :=
  (List.range PAGE_WORDS).all (fun k => mem (aW + k) == mem (bW + k))

/-- `disk_write(frame_id * 8, 8, src)`: copy one frame from memory to the
backing store. -/
def disk_writeFrame (f : Int) (srcW : Nat) (mem : Nat → Nat) (disk : Int → Nat) :
    Int → Nat :=
  fun a => if f * 1024 ≤ a ∧ a < f * 1024 + 1024 then mem (srcW + (a - f * 1024).toNat)
    else disk a

/-- `disk_read(frame_id * 8, 8, dst)`: copy one frame from the backing
store into memory. -/
def disk_readFrame (f : Int) (dstW : Nat) (mem : Nat → Nat) (disk : Int → Nat) :
    Nat → Nat :=
  fun a => if dstW ≤ a ∧ a < dstW + PAGE_WORDS then disk (f * 1024 + (a - dstW : Nat))
    else mem a

/-- `cache_eviction` (writeback-aware): pick `rand() % ARTY_CACHED_NFRAMES`;
if that slot is dirty, write its frame back to disk and clear the dirty
bit; return the slot index. -/
def cache_eviction (s : PagingState) : Nat × PagingState :=
  let r := s.rands.headD 0
  let s0 := { s with rands := s.rands.tail }
  let idx := r % ARTY_CACHED_NFRAMES
  if s0.dirty_pages.getD idx false then
    let fid := s0.cache_slots.getD idx (-1)
    (idx, { s0 with disk := disk_writeFrame fid (slotBaseW idx) s0.mem s0.disk,
                    dirty_pages := s0.dirty_pages.set idx false })
  else (idx, s0)

/-- `find_or_evict_cache_slot`: first free slot (`cache_slots[i] == -1`),
else evict. -/
def find_or_evict_cache_slot (s : PagingState) : Nat × PagingState :=
  match scanIdx (fun i => decide (s.cache_slots.getD i 0 = -1)) 0
      ARTY_CACHED_NFRAMES with
  | some i => (i, s)
  | none => cache_eviction s

/-- `paging_invalidate_cache(frame_id)`: clear every cache slot holding
`frame_id`; nothing else is touched (in particular no disk access). -/
def paging_invalidate_cache (frame_id : Int) (s : PagingState) : PagingState :=
  { s with cache_slots :=
      s.cache_slots.map (fun x => if x = frame_id then -1 else x) }

/-- `paging_write(frame_id, page_no)` from `src/earth/dev_page.c` (the
active write-back version). -/
def paging_write (frame_id page_no : Int) (s : PagingState) : PagingState :=
  let srcW := page_no.toNat * PAGE_WORDS
  if s.platform = Platform.QEMU then
    let pr := find_or_evict_cache_slot s
    let idx := pr.fst
    let s1 := pr.snd
    { s1 with mem := memcpyPageW (slotBaseW idx) srcW s1.mem,
              dirty_pages := s1.dirty_pages.set idx true }
  else
    match scanIdx (fun i => decide (s.cache_slots.getD i 0 = frame_id)) 0
        ARTY_CACHED_NFRAMES with
    | some i =>
        if pageEqB s.mem (slotBaseW i) srcW then s
        else
          { s with mem := memcpyPageW (slotBaseW i) srcW s.mem,
                   dirty_pages := s.dirty_pages.set i true }
    | none =>
        let pr :=
          match scanIdx (fun i => decide (s.cache_slots.getD i 0 = -1)) 0
              ARTY_CACHED_NFRAMES with
          | some i => (i, s)
          | none => cache_eviction s
        let idx := pr.fst
        let s1 := pr.snd
        { s1 with cache_slots := s1.cache_slots.set idx frame_id,
                  mem := memcpyPageW (slotBaseW idx) srcW s1.mem,
                  dirty_pages := s1.dirty_pages.set idx true }

/-- `paging_read(frame_id, alloc_only)` from `src/earth/dev_page.c` (the
active cache-aside version); returns the cache slot index standing for
the returned address `pages_start + PAGE_SIZE * idx`, plus the new
state. -/
def paging_read (frame_id : Int) (alloc_only : Bool) (s : PagingState) :
    Nat × PagingState :=
  if s.platform = Platform.QEMU then
    let pr := find_or_evict_cache_slot s
    let idx := pr.fst
    let s1 := pr.snd
    if !alloc_only && !(pageEqB s1.mem (slotBaseW idx) (frame_id.toNat * PAGE_WORDS))
    then
      (idx, { s1 with mem := disk_readFrame frame_id (slotBaseW idx) s1.mem s1.disk,
                      dirty_pages := s1.dirty_pages.set idx false })
    else (idx, s1)
  else
    match scanIdx (fun i => decide (s.cache_slots.getD i 0 = frame_id)) 0
        ARTY_CACHED_NFRAMES with
    | some i => (i, s)
    | none =>
        let pr :=
          match scanIdx (fun i => decide (s.cache_slots.getD i 0 = -1)) 0
              ARTY_CACHED_NFRAMES with
          | some i => (i, s)
          | none => cache_eviction s
        let idx := pr.fst
        let s1 := { pr.snd with cache_slots := pr.snd.cache_slots.set idx frame_id }
        if !alloc_only then
          (idx, { s1 with mem := disk_readFrame frame_id (slotBaseW idx) s1.mem s1.disk,
                          dirty_pages := s1.dirty_pages.set idx false })
        else (idx, s1)

/-! ### MMU layer (`src/unnamed/part_001`) -/

structure frame_mapping where
  use : Bool
  pid : Int
  page_no : Int
deriving DecidableEq, Repr

/-- Default (zero-initialised) frame-mapping record. -/
def dFM : frame_mapping := { use := false, pid := 0, page_no := 0 }

structure MMUState where
  table : List frame_mapping
  pg : PagingState
  curr_vm_pid : Int
  pid_to_pagetable_base : List Nat

/-- `mmu_alloc`: first-fit scan of the mapping table for a frame whose
in-use flag is clear; the frame is pulled into the cache with
`paging_read(i, 1)` (alloc-only) and marked in-use.  Returns
`(frame_id, cached_addr, state)`; `none` models
`FATAL("mmu_alloc: no more available frames")`. -/
def mmu_alloc (m : MMUState) : Option (Nat × Nat × MMUState) :=
  match scanIdx (fun i => !(m.table.getD i dFM).use) 0 NFRAMES with
  | some i =>
      let pr := paging_read (i : Int) true m.pg
      some (i, FRAME_CACHE_START + pr.fst * PAGE_SIZE,
        { m with table := m.table.set i { m.table.getD i dFM with use := true },
                 pg := pr.snd })
  | none => none

/-- `soft_tlb_map(pid, page_no, frame_id)`: stamp the mapping record of
`frame_id` with the given pid and page number.  (The function has no
`flags` parameter and the record's in-use flag is untouched.) -/
def soft_tlb_map (m : MMUState) (pid page_no : Int) (frame_id : Nat) : MMUState :=
  let e := m.table.getD frame_id dFM
  let e2 := { e with pid := pid, page_no := page_no }
  { m with table := m.table.set frame_id e2 }

/-- `soft_tlb_switch(pid)`: no-op when `pid` is already the current VM
pid; otherwise write every frame of the outgoing pid back into its cache
slot (`paging_write`), copy every frame of the incoming pid from its
cache slot into the user-virtual window at `page_no << 12`
(`paging_read` + `memcpy`), and record `pid` as current. -/
def soft_tlb_switch (m : MMUState) (pid : Int) : MMUState :=
  if pid = m.curr_vm_pid then m
  else
    let pgW := (List.range NFRAMES).foldl
      (fun pg i =>
        let r := m.table.getD i dFM
        if r.use ∧ r.pid = m.curr_vm_pid then paging_write (i : Int) r.page_no pg
        else pg)
      m.pg
    let pgR := (List.range NFRAMES).foldl
      (fun pg i =>
        let r := m.table.getD i dFM
        if r.use ∧ r.pid = pid then
          let pr := paging_read (i : Int) false pg
          { pr.snd with
            mem := memcpyPageW (r.page_no.toNat * PAGE_WORDS) (slotBaseW pr.fst)
              pr.snd.mem }
        else pg)
      pgW
    { m with pg := pgR, curr_vm_pid := pid }

/-! ### Page-table translation (`src/unnamed/part_001`)

Sv32 page tables live in allocated frames; entries are read and written
word-by-word through `mem`.  The C statics `frame_id`, `root` and `leaf`
are always written before use within one call chain, so they are plain
data flow here (`pagetable_identity_mapping` passes the root address to
`setup_identity_region`).  Note that in `page_table_map`'s leaf-allocation
branch the call `earth->mmu_alloc(&frame_id, ...)` overwrites the
`frame_id` PARAMETER with the id of the freshly allocated page-table
frame, exactly as in the source. -/

/-- `OS_RWX` from `src/unnamed/part_001`. -/
def OS_RWX : Nat := 0xF

/-- `USER_RWX` from `src/unnamed/part_001`. -/
def USER_RWX : Nat := 0x1F

/-- `setup_identity_region(pid, addr, npages, flag)`; `rootAddr` is the
static `root` set by `pagetable_identity_mapping`. -/
def setup_identity_region (pid : Nat) (rootAddr addr npages flag : Nat)
    (m : MMUState) : Option MMUState := do
  let vpn1 := addr >>> 22
  let e := m.pg.mem (rootAddr / 4 + vpn1)
  let (leafW, m1) ←
    if e &&& 1 = 1 then
      some (((e <<< 2) &&& 0xFFFFF000) / 4, m)
    else do
      let r ← mmu_alloc m
      let fid := r.fst
      let leafAddr := r.snd.fst
      let mA := r.snd.snd
      let e2 := { mA.table.getD fid dFM with pid := (pid : Int) }
      let mB := { mA with table := mA.table.set fid e2 }
      let mC := { mB with pg := { mB.pg with mem := memsetPageW (leafAddr / 4) mB.pg.mem } }
      let mD := { mC with pg := { mC.pg with
        mem := wordWrite (rootAddr / 4 + vpn1) ((leafAddr >>> 2) ||| 1) mC.pg.mem } }
      some (leafAddr / 4, mD)
  let vpn0 := (addr >>> 12) &&& 0x3FF
  let mem2 := (List.range npages).foldl
    (fun mm i => wordWrite (leafW + vpn0 + i) (((addr + i * PAGE_SIZE) >>> 2) ||| flag) mm)
    m1.pg.mem
  some { m1 with pg := { m1.pg with mem := mem2 } }

/-- `pagetable_identity_mapping(pid)`: allocate the root page table,
record it in `pid_to_pagetable_base`, then install the fixed identity
regions (CLINT, UART0, SPI1, boot ROM, disk image, DTIM, 8×4MB ITIM). -/
def pagetable_identity_mapping (pid : Nat) (m : MMUState) : Option MMUState := do
  let r ← mmu_alloc m
  let fid := r.fst
  let rootAddr := r.snd.fst
  let m1 := r.snd.snd
  let e2 := { m1.table.getD fid dFM with pid := (pid : Int) }
  let m2 := { m1 with table := m1.table.set fid e2 }
  let m3 := { m2 with pg := { m2.pg with mem := memsetPageW (rootAddr / 4) m2.pg.mem } }
  let m4 := { m3 with pid_to_pagetable_base := m3.pid_to_pagetable_base.set pid rootAddr }
  let m5 ← setup_identity_region pid rootAddr 0x02000000 16 OS_RWX m4
  let m6 ← setup_identity_region pid rootAddr 0x10013000 1 OS_RWX m5
  let m7 ← setup_identity_region pid rootAddr 0x10024000 1 OS_RWX m6
  let m8 ← setup_identity_region pid rootAddr 0x20400000 1024 OS_RWX m7
  let m9 ← setup_identity_region pid rootAddr 0x20800000 1024 OS_RWX m8
  let m10 ← setup_identity_region pid rootAddr 0x80000000 1024 OS_RWX m9
  (List.range 8).foldlM
    (fun acc i =>
      setup_identity_region pid rootAddr (0x08000000 + i * 0x400000) 1024 OS_RWX acc)
    m10

/-- `page_table_map(pid, page_no, frame_id)`: fatal for `pid >= 32`;
lazily build the identity mapping; then install at the leaf indexed by
`VPN1 = page_no >> 10`, `VPN0 = page_no & 0x3FF` the entry
`(frame_id << 2) | USER_RWX` (the source's exact expression). -/
def page_table_map (pid page_no frame_id : Nat) (m : MMUState) : Option MMUState :=
  if pid ≥ 32 then none
  else do
    let m1 ←
      if m.pid_to_pagetable_base.getD pid 0 = 0 then pagetable_identity_mapping pid m
      else some m
    let rootAddr := m1.pid_to_pagetable_base.getD pid 0
    let vpn1 := page_no >>> 10
    let vpn0 := page_no &&& 0x3FF
    let e := m1.pg.mem (rootAddr / 4 + vpn1)
    if e &&& 1 = 1 then
      let leafW := ((e <<< 2) &&& 0xFFFFF000) / 4
      some { m1 with pg := { m1.pg with
        mem := wordWrite (leafW + vpn0) ((frame_id <<< 2) ||| USER_RWX) m1.pg.mem } }
    else do
      let r ← mmu_alloc m1
      let fid2 := r.fst
      let leafAddr := r.snd.fst
      let m2 := r.snd.snd
      let e2 := { m2.table.getD fid2 dFM with pid := (pid : Int) }
      let m3 := { m2 with table := m2.table.set fid2 e2 }
      let m4 := { m3 with pg := { m3.pg with mem := memsetPageW (leafAddr / 4) m3.pg.mem } }
      let m5 := { m4 with pg := { m4.pg with
        mem := wordWrite (rootAddr / 4 + vpn1) ((leafAddr >>> 2) ||| 1) m4.pg.mem } }
      some { m5 with pg := { m5.pg with
        mem := wordWrite (leafAddr / 4 + vpn0) ((fid2 <<< 2) ||| USER_RWX) m5.pg.mem } }

/-- C8: `invalidate(frame_id)` is idempotent, removes `frame_id` from
every cache slot that holds it (pointwise: a slot holding `frame_id`
becomes empty (−1) and every other slot is unchanged), and touches
neither the backing store (no disk write) nor memory, dirty bits,
platform or the rand oracle. -/
theorem C8_invalidate_idempotent_no_disk (s : PagingState) (f : Int) :
    paging_invalidate_cache f (paging_invalidate_cache f s) =
      paging_invalidate_cache f s ∧
    (∀ j : Nat, (paging_invalidate_cache f s).cache_slots[j]? =
      (s.cache_slots[j]?).map (fun x => if x = f then -1 else x)) ∧
    (paging_invalidate_cache f s).disk = s.disk ∧
    (paging_invalidate_cache f s).mem = s.mem ∧
    (paging_invalidate_cache f s).dirty_pages = s.dirty_pages ∧
    (paging_invalidate_cache f s).platform = s.platform ∧
    (paging_invalidate_cache f s).rands = s.rands := by
  refine ⟨?_, ?_, rfl, rfl, rfl, rfl, rfl⟩
  · have hfun : ((fun x : Int => if x = f then -1 else x) ∘
        fun x : Int => if x = f then -1 else x) =
        (fun x : Int => if x = f then -1 else x) := by
      funext x
      by_cases hx : x = f
      · subst hx
        simp only [Function.comp_apply, if_pos rfl]
        split_ifs <;> rfl
      · simp only [Function.comp_apply, if_neg hx]
    simp only [paging_invalidate_cache, List.map_map, hfun]
  · intro j
    simp only [paging_invalidate_cache, List.getElem?_map]

/-- C9: calling the software-TLB switch twice in a row with the same pid
is a no-op: after the first call the current VM pid equals `pid`, so the
second call returns through the early-exit guard leaving the entire MMU
state (frame cache, user-virtual window memory, mapping table) exactly
as the first call left it. -/
theorem C9_switch_twice_noop (m : MMUState) (pid : Int) :
    soft_tlb_switch (soft_tlb_switch m pid) pid = soft_tlb_switch m pid ∧
    (soft_tlb_switch m pid).curr_vm_pid = pid := by
  by_cases h : pid = m.curr_vm_pid
  · have hinner : soft_tlb_switch m pid = m := by rw [soft_tlb_switch, if_pos h]
    constructor
    · rw [hinner, hinner]
    · rw [hinner]
      exact h.symm
  · have h2 : (soft_tlb_switch m pid).curr_vm_pid = pid := by
      rw [soft_tlb_switch, if_neg h]
    refine ⟨?_, h2⟩
    rw [soft_tlb_switch]
    rw [if_pos h2.symm]

theorem getD_set_self {α : Type} (l : List α) (i : Nat) (a d : α)
    (h : i < l.length) : (l.set i a).getD i d = a := by
  rw [List.getD_eq_getElem?_getD, List.getElem?_set_self]
  · rfl
  · exact h

theorem getD_set_other {α : Type} (l : List α) (i j : Nat) (a d : α)
    (h : j ≠ i) : (l.set i a).getD j d = l.getD j d := by
  rw [List.getD_eq_getElem?_getD, List.getElem?_set_ne, List.getD_eq_getElem?_getD]
  omega

/-- C5 (amended): `soft_tlb_map(pid, page_no, frame_id)` (there is no
`flags` parameter) stamps the mapping record of `frame_id` with the
given `pid` and `page_no`; the record's in-use flag and every other
record — and the rest of the MMU state — are unchanged. -/
theorem C5_soft_tlb_map_stamps (m : MMUState) (pid page_no : Int)
    (frame_id : Nat) (hlt : frame_id < m.table.length) :
    ((soft_tlb_map m pid page_no frame_id).table.getD frame_id dFM).pid = pid ∧
    ((soft_tlb_map m pid page_no frame_id).table.getD frame_id dFM).page_no =
      page_no ∧
    ((soft_tlb_map m pid page_no frame_id).table.getD frame_id dFM).use =
      (m.table.getD frame_id dFM).use ∧
    (∀ j : Nat, j ≠ frame_id →
      (soft_tlb_map m pid page_no frame_id).table.getD j dFM =
        m.table.getD j dFM) ∧
    (soft_tlb_map m pid page_no frame_id).pg = m.pg ∧
    (soft_tlb_map m pid page_no frame_id).curr_vm_pid = m.curr_vm_pid := by
  refine ⟨?_, ?_, ?_, ?_, rfl, rfl⟩
  · simp only [soft_tlb_map]
    rw [getD_set_self _ _ _ _ hlt]
  · simp only [soft_tlb_map]
    rw [getD_set_self _ _ _ _ hlt]
  · simp only [soft_tlb_map]
    rw [getD_set_self _ _ _ _ hlt]
  · intro j hj
    simp only [soft_tlb_map]
    exact getD_set_other _ _ _ _ _ hj

/-- An all-empty paging state used by the concrete MMU states below. -/
def pg0 : PagingState :=
  { platform := Platform.QEMU, cache_slots := List.replicate 28 (-1),
    dirty_pages := List.replicate 28 false, mem := fun _ => 0,
    disk := fun _ => 0, rands := [] }

/-- Two MMU states that differ only in the in-use flag of frame 0's
mapping record. -/
def mapInUse : MMUState :=
  { table := (List.replicate 256 dFM).set 0
      ({ use := true, pid := 9, page_no := 9 } : frame_mapping),
    pg := pg0, curr_vm_pid := -1, pid_to_pagetable_base := List.replicate 32 0 }

def mapNotInUse : MMUState :=
  { table := (List.replicate 256 dFM).set 0
      ({ use := false, pid := 9, page_no := 9 } : frame_mapping),
    pg := pg0, curr_vm_pid := -1, pid_to_pagetable_base := List.replicate 32 0 }

/-- C5 (counterexample): the claim says `map` stamps the record with
`pid`, `page_no` AND `flags`, all three record fields equalling the call
arguments afterwards.  `soft_tlb_map` has no flags argument: the
record's remaining field (the in-use flag) keeps its pre-call value, so
the post-call record is not determined by the arguments — two states
differing only in that flag yield different records after the same
`soft_tlb_map(1, 2, 0)` call. -/
theorem C5_no_flags_field_stamped :
    ((soft_tlb_map mapInUse 1 2 0).table.getD 0 dFM).use = true ∧
    ((soft_tlb_map mapNotInUse 1 2 0).table.getD 0 dFM).use = false ∧
    (soft_tlb_map mapInUse 1 2 0).table.getD 0 dFM ≠
      (soft_tlb_map mapNotInUse 1 2 0).table.getD 0 dFM := by
  refine ⟨by decide, by decide, by decide⟩

/-- C5 witness: the amended statement applied at a concrete state. -/
theorem C5_soft_tlb_map_stamps_witness :
    (0 : Nat) < mapInUse.table.length ∧
    (((soft_tlb_map mapInUse 1 2 0).table.getD 0 dFM).pid = 1 ∧
    ((soft_tlb_map mapInUse 1 2 0).table.getD 0 dFM).page_no = 2 ∧
    ((soft_tlb_map mapInUse 1 2 0).table.getD 0 dFM).use =
      (mapInUse.table.getD 0 dFM).use ∧
    (∀ j : Nat, j ≠ 0 →
      (soft_tlb_map mapInUse 1 2 0).table.getD j dFM =
        mapInUse.table.getD j dFM) ∧
    (soft_tlb_map mapInUse 1 2 0).pg = mapInUse.pg ∧
    (soft_tlb_map mapInUse 1 2 0).curr_vm_pid = mapInUse.curr_vm_pid) :=
  ⟨by decide, C5_soft_tlb_map_stamps mapInUse 1 2 0 (by decide)⟩

/-- C7: `mmu_alloc` is fatal exactly when every frame's in-use flag is
set; a successful call returns the lowest-indexed frame whose in-use
flag is clear, marks exactly that record in-use, pulls the frame into
the cache with `paging_read(frame, alloc_only = true)`, and returns the
frame's fast-memory cache address. -/
theorem C7_mmu_alloc_first_fit (m : MMUState) :
    (mmu_alloc m = none ↔
      ∀ i, i < NFRAMES → (m.table.getD i dFM).use = true) ∧
    (∀ fid addr m2, mmu_alloc m = some (fid, addr, m2) →
      fid < NFRAMES ∧ (m.table.getD fid dFM).use = false ∧
      (∀ j, j < fid → (m.table.getD j dFM).use = true) ∧
      m2.table = m.table.set fid { m.table.getD fid dFM with use := true } ∧
      addr = FRAME_CACHE_START + (paging_read (fid : Int) true m.pg).fst * PAGE_SIZE ∧
      m2.pg = (paging_read (fid : Int) true m.pg).snd ∧
      m2.curr_vm_pid = m.curr_vm_pid ∧
      m2.pid_to_pagetable_base = m.pid_to_pagetable_base) := by
  constructor
  · unfold mmu_alloc
    cases h : scanIdx (fun i => !(m.table.getD i dFM).use) 0 NFRAMES with
    | none =>
      rw [scanIdx_none_iff] at h
      constructor
      · intro _ i hi
        have := h i (Nat.zero_le i) hi
        simpa using this
      · intro _; rfl
    | some i =>
      rw [scanIdx_some_iff] at h
      obtain ⟨-, hiN, hp, -⟩ := h
      constructor
      · intro hfalse; exact Option.noConfusion hfalse
      · intro hall
        have := hall i hiN
        rw [this] at hp
        simp at hp
  · intro fid addr m2 hsome
    unfold mmu_alloc at hsome
    cases h : scanIdx (fun i => !(m.table.getD i dFM).use) 0 NFRAMES with
    | none => rw [h] at hsome; cases hsome
    | some i =>
      rw [h] at hsome
      rw [scanIdx_some_iff] at h
      obtain ⟨-, hiN, hp, hmin⟩ := h
      injection hsome with hsome
      simp only [Prod.mk.injEq] at hsome
      obtain ⟨h1, h2, h3⟩ := hsome
      subst h1
      subst h2
      subst h3
      refine ⟨hiN, by simpa using hp, ?_, rfl, rfl, rfl, rfl, rfl⟩
      intro j hj
      have := hmin j (Nat.zero_le j) hj
      simpa using this

/-- A fully free MMU state: every mapping record unused, empty cache. -/
def allocWitState : MMUState :=
  { table := List.replicate 256 dFM, pg := pg0, curr_vm_pid := -1,
    pid_to_pagetable_base := List.replicate 32 0 }

/-- C7 witness: on the all-free state the allocator returns frame 0, and
the characterization theorem applies. -/
theorem C7_mmu_alloc_first_fit_witness :
    (mmu_alloc allocWitState).map (fun r => r.fst) = some 0 ∧
    ((mmu_alloc allocWitState = none ↔
      ∀ i, i < NFRAMES → (allocWitState.table.getD i dFM).use = true) ∧
    (∀ fid addr m2, mmu_alloc allocWitState = some (fid, addr, m2) →
      fid < NFRAMES ∧ (allocWitState.table.getD fid dFM).use = false ∧
      (∀ j, j < fid → (allocWitState.table.getD j dFM).use = true) ∧
      m2.table = allocWitState.table.set fid
        { allocWitState.table.getD fid dFM with use := true } ∧
      addr = FRAME_CACHE_START +
        (paging_read (fid : Int) true allocWitState.pg).fst * PAGE_SIZE ∧
      m2.pg = (paging_read (fid : Int) true allocWitState.pg).snd ∧
      m2.curr_vm_pid = allocWitState.curr_vm_pid ∧
      m2.pid_to_pagetable_base = allocWitState.pid_to_pagetable_base)) :=
  ⟨by decide, C7_mmu_alloc_first_fit allocWitState⟩

/-! ### Claim C6: the installed leaf entry of `page_table_map` -/

/-- A concrete page-table state for pid 1: the root page at `ptRoot` is
already recorded in `pid_to_pagetable_base`, and its entry for `VPN1 = 0`
points (valid bit set, Sv32 `>> 2` encoding) at an existing leaf page at
`ptLeaf`. -/
def ptRoot : Nat := 0x80100000

def ptLeaf : Nat := 0x80101000

def ptMem : Nat → Nat :=
  fun w => if w = ptRoot / 4 then ((ptLeaf >>> 2) ||| 1) else 0

def ptState : MMUState :=
  { table := List.replicate 256 dFM,
    pg := { pg0 with mem := ptMem },
    curr_vm_pid := -1,
    pid_to_pagetable_base := (List.replicate 32 0).set 1 ptRoot }

/-- C6: the claim (and the spec's Sv32 invariant) says the installed
leaf entry references the frame's physical address shifted right by 2
bits.  The code instead writes `(frame_id << 2) | USER_RWX`.  Since
`USER_RWX = 0x1F` occupies bits 0–4 and `frame_id < 256` only reaches
bit 9, the Sv32 PPN field (bits 31:10) of every installed entry is 0:
mapping frame 1 and mapping frame 2 at the same leaf slot install the
IDENTICAL entry `0x1F`, which references physical page 0, not the
frame.  (Contrast `setup_identity_region` in the same file, which writes
`(addr >> 2) | flag`.)  This theorem evaluates `page_table_map` at the
failing inputs `pid = 1, page_no = 0, frame_id ∈ {1, 2}`. -/
theorem C6_leaf_entry_ignores_frame :
    (page_table_map 1 0 1 ptState).map (fun m => m.pg.mem (ptLeaf / 4)) =
      some 0x1F ∧
    (page_table_map 1 0 2 ptState).map (fun m => m.pg.mem (ptLeaf / 4)) =
      some 0x1F ∧
    (0x1F >>> 10 : Nat) = 0 ∧ (1 : Nat) ≠ 2 := by
  refine ⟨by decide, by decide, by decide, by decide⟩
